import Mathlib

/-!
Verification of `dev/log-regression-checker/log_regression_checker.py`.

The program manipulates small JSON-like dictionaries with string keys and
string values.  We embed a Python `dict` as an association list
`List (String × String)` in insertion order; lookups use `List.lookup`.
Python mutation is made explicit: every function of the program is
translated to a Lean function that returns both its Python return value
and the final state of any mutable argument the Python code can reach.
-/

/-- A Python dictionary with string keys and values of type `β`,
embedded as an association list in insertion order. -/
abbrev PyDict (β : Type) : Type := List (String × β)

/-- The values view of a dictionary, as in Python `d.values()`. -/
def dictValues {β : Type} (d : PyDict β) : List β :=
  d.map Prod.snd

/-- Embedding of Python `d.update(e)`: every key of `e` is written into
`d`, overwriting the value of a key already present (which keeps its
position) and appending keys of `e` that are new, in their order. -/
def dictUpdate {β : Type} (d e : PyDict β) : PyDict β :=
  d.map (fun p => match e.lookup p.1 with
                  | some v => (p.1, v)
                  | none => p)
    ++ e.filter (fun p => (d.lookup p.1).isNone)

/-- Embedding of the Python assignment `d[k] = v`: overwrite the value of
`k` if the key is present (keeping its position), append `(k, v)` otherwise. -/
def dictSet {β : Type} (d : PyDict β) (k : String) (v : β) : PyDict β :=
  if (d.lookup k).isSome then
    d.map (fun p => if p.1 = k then (k, v) else p)
  else
    d ++ [(k, v)]

/-- The configuration object `configs`: a JSON object with the two keys
`unmerged` and `master`, each holding a string-to-string dictionary. -/
structure Config where
  unmerged : PyDict String
  master : PyDict String
deriving Repr, DecidableEq

/-- The archive object: a dictionary from release tag to a merged
string-to-string dictionary. -/
abbrev Archives : Type := PyDict (PyDict String)

/-- Line 7 of the source: `excluded_files = configs["unmerged"].values()`. -/
def excluded_files (configs : Config) : List String :=
  dictValues configs.unmerged

/-- Lines 9-12 of the source: the loop collecting every value of
`configs["master"]` that is not among `excluded_files`. -/
def files_to_check (configs : Config) : List String :=
  (dictValues configs.master).filter
    (fun file_to_check => ¬ file_to_check ∈ excluded_files configs)

/-- Lines 26-28 of the source: record one offending `log_line` under
`log_file` in `failures`, creating an empty entry first when the file has
no entry yet. -/
def recordFailure (failures : PyDict (List String))
    (log_file log_line : String) : PyDict (List String) :=
  let failures :=
    if (failures.lookup log_file).isSome then failures
    else failures ++ [(log_file, [])]
  failures.map (fun p => if p.1 = log_file then (p.1, p.2 ++ [log_line]) else p)

/-- Lines 19-28 of the source: process one `log_file`, folding the inner
`for log_line in current_log_lines` loop over `failures`.  The external
collaborator `parse_log_lines` (imported from `log_line_extractor`, not
part of this repository) is passed in as a function, as are the two
injected fetchers. -/
def checkFile (parse_log_lines : String → List String)
    (get_master_contents get_current_contents : String → String)
    (failures : PyDict (List String)) (log_file : String) :
    PyDict (List String) :=
  let expected_log_lines := parse_log_lines (get_master_contents log_file)
  let current_log_lines := parse_log_lines (get_current_contents log_file)
  current_log_lines.foldl
    (fun fl log_line =>
      if log_line ∈ expected_log_lines then fl
      else recordFailure fl log_file log_line)
    failures

/-- Lines 5-34 of the source: `check`.  Returns the `failures` report
together with the final state of the mutable argument `configs`; no
statement of the function writes to `configs`, so its final state is the
input.  The `verbose` flag only affects printing and is therefore unused. -/
def check (configs : Config) (parse_log_lines : String → List String)
    (get_master_contents get_current_contents : String → String)
    (verbose : Bool) : PyDict (List String) × Config :=
  ((files_to_check configs).foldl
      (checkFile parse_log_lines get_master_contents get_current_contents)
      [],
   configs)

/-- Lines 36-44 of the source: `update_master`.  The Python code binds
`merged_files` to the very object `configs["unmerged"]` and then calls
`merged_files.update(configs["master"])`, mutating that object in place;
so the first component is the returned `new_contents` and the second is
the final state of the argument `configs` (whose `unmerged` dictionary
now holds the merged mapping). -/
def update_master (configs : Config) (verbose : Bool) : Config × Config :=
  let merged_files := dictUpdate configs.unmerged configs.master
  (⟨[], merged_files⟩, ⟨merged_files, configs.master⟩)

/-- Lines 46-54 of the source: `update_release`.  As in `update_master`,
`merged_files` aliases and mutates `configs["unmerged"]`; then
`archives[tag] = merged_files` stores the merged mapping.  The first
component is the returned archive, the second the final state of
`configs`.  Both `verbose` and `dry_run` only affect printing. -/
def update_release (configs : Config) (archives : Archives) (tag : String)
    (verbose : Bool) (dry_run : Bool) : Archives × Config :=
  let merged_files := dictUpdate configs.unmerged configs.master
  (dictSet archives tag merged_files, ⟨merged_files, configs.master⟩)

/-- Follows the words of the spec, for comparison with the code: the
merged mapping described in sections 4.2 and 4.3 as "the union of the old
`master` and old `unmerged`, with `unmerged` entries taking precedence on
key collision". -/
def specMergeUnmergedWins (configs : Config) : PyDict String :=
  dictUpdate configs.master configs.unmerged

/-! ### Lemmas about the dictionary embedding -/

theorem lookup_cons_self {β : Type} (a : String) (b : β) (d : PyDict β) :
    ((a, b) :: d).lookup a = some b := by
  simp [List.lookup_cons]

theorem lookup_cons_ne {β : Type} (a k : String) (b : β) (d : PyDict β)
    (h : ¬ k = a) :
    ((a, b) :: d).lookup k = d.lookup k := by
  have hb : (k == a) = false := by simpa using h
  simp [List.lookup_cons, hb]

theorem lookup_append {β : Type} (l₁ l₂ : PyDict β) (k : String) :
    (l₁ ++ l₂).lookup k = (l₁.lookup k).or (l₂.lookup k) := by
  induction l₁ with
  | nil => simp
  | cons p l ih =>
    obtain ⟨a, b⟩ := p
    by_cases h : k = a
    · subst h
      rw [List.cons_append, lookup_cons_self, lookup_cons_self]
      rfl
    · rw [List.cons_append, lookup_cons_ne _ _ _ _ h, lookup_cons_ne _ _ _ _ h, ih]

theorem lookup_eq_none_iff {β : Type} (d : PyDict β) (k : String) :
    d.lookup k = none ↔ ¬ k ∈ d.map Prod.fst := by
  induction d with
  | nil => simp
  | cons p d ih =>
    obtain ⟨a, b⟩ := p
    by_cases h : k = a
    · subst h
      rw [lookup_cons_self]
      simp
    · rw [lookup_cons_ne _ _ _ _ h, ih]
      simp [h]

theorem lookup_isSome_iff {β : Type} (d : PyDict β) (k : String) :
    (d.lookup k).isSome ↔ k ∈ d.map Prod.fst := by
  rcases hd : d.lookup k with _ | v
  · have hm := (lookup_eq_none_iff d k).mp hd
    simp [hm]
  · have hne : ¬ d.lookup k = none := by simp [hd]
    have hm : k ∈ d.map Prod.fst := by
      by_contra hmem
      exact hne ((lookup_eq_none_iff d k).mpr hmem)
    simp [hm]

theorem lookup_dictUpdate_left {β : Type} (d e : PyDict β) (k : String) :
    (d.map (fun p => match e.lookup p.1 with
                     | some v => (p.1, v)
                     | none => p)).lookup k
      = if (d.lookup k).isSome then (e.lookup k).or (d.lookup k) else none := by
  induction d with
  | nil => simp
  | cons p d ih =>
    obtain ⟨a, b⟩ := p
    by_cases h : k = a
    · subst h
      rw [lookup_cons_self]
      cases he : e.lookup k <;>
        simp [List.map_cons, he, lookup_cons_self]
    · rw [lookup_cons_ne _ _ _ _ h]
      cases he : e.lookup a <;>
        simp only [List.map_cons, he] <;>
        rw [lookup_cons_ne _ _ _ _ h, ih]

theorem lookup_dictUpdate_right {β : Type} (d e : PyDict β) (k : String) :
    (e.filter (fun p => (d.lookup p.1).isNone)).lookup k
      = if (d.lookup k).isNone then e.lookup k else none := by
  induction e with
  | nil => simp
  | cons p e ih =>
    obtain ⟨a, b⟩ := p
    by_cases h : k = a
    · subst h
      cases hd : (d.lookup k).isNone
      · simp [List.filter_cons, hd, ih]
      · simp [List.filter_cons, hd, lookup_cons_self, ih]
    · cases hd : (d.lookup a).isNone
      · rw [List.filter_cons, if_neg (by simp [hd]), ih, lookup_cons_ne _ _ _ _ h]
      · rw [List.filter_cons, if_pos (by simp [hd]), lookup_cons_ne _ _ _ _ h, ih,
          lookup_cons_ne _ _ _ _ h]

theorem lookup_dictUpdate {β : Type} (d e : PyDict β) (k : String) :
    (dictUpdate d e).lookup k = (e.lookup k).or (d.lookup k) := by
  rw [dictUpdate, lookup_append, lookup_dictUpdate_left, lookup_dictUpdate_right]
  cases hd : d.lookup k <;> cases he : e.lookup k <;> simp

theorem mem_keys_dictUpdate {β : Type} (d e : PyDict β) (k : String) :
    k ∈ (dictUpdate d e).map Prod.fst ↔
      k ∈ d.map Prod.fst ∨ k ∈ e.map Prod.fst := by
  rw [← lookup_isSome_iff, ← lookup_isSome_iff, ← lookup_isSome_iff,
    lookup_dictUpdate]
  cases hd : d.lookup k <;> cases he : e.lookup k <;> simp

theorem lookup_map_set_self {β : Type} (d : PyDict β) (k : String) (v : β) :
    (d.map (fun p => if p.1 = k then (k, v) else p)).lookup k
      = if (d.lookup k).isSome then some v else none := by
  induction d with
  | nil => simp
  | cons p d ih =>
    obtain ⟨a, b⟩ := p
    by_cases h : k = a
    · subst h
      simp [List.map_cons, lookup_cons_self]
    · have ha : ¬ a = k := fun he => h he.symm
      rw [List.map_cons]
      simp only [ha, if_false]
      rw [lookup_cons_ne _ _ _ _ h, lookup_cons_ne _ _ _ _ h, ih]

theorem lookup_map_set_ne {β : Type} (d : PyDict β) (k t : String) (v : β)
    (h : ¬ t = k) :
    (d.map (fun p => if p.1 = k then (k, v) else p)).lookup t = d.lookup t := by
  induction d with
  | nil => simp
  | cons p d ih =>
    obtain ⟨a, b⟩ := p
    rw [List.map_cons]
    by_cases ha : a = k
    · subst ha
      have hhead : (if (a, b).1 = a then (a, v) else (a, b)) = (a, v) := by simp
      rw [hhead, lookup_cons_ne _ _ _ _ h, lookup_cons_ne _ _ _ _ h, ih]
    · simp only [ha, if_false]
      by_cases ht : t = a
      · subst ht
        rw [lookup_cons_self, lookup_cons_self]
      · rw [lookup_cons_ne _ _ _ _ ht, lookup_cons_ne _ _ _ _ ht, ih]

theorem lookup_dictSet_self {β : Type} (d : PyDict β) (k : String) (v : β) :
    (dictSet d k v).lookup k = some v := by
  rw [dictSet]
  by_cases hs : (d.lookup k).isSome
  · rw [if_pos hs, lookup_map_set_self, if_pos hs]
  · rw [if_neg hs, lookup_append, lookup_cons_self]
    rw [Option.not_isSome_iff_eq_none] at hs
    rw [hs]
    rfl

theorem lookup_dictSet_ne {β : Type} (d : PyDict β) (k t : String) (v : β)
    (h : ¬ t = k) :
    (dictSet d k v).lookup t = d.lookup t := by
  rw [dictSet]
  by_cases hs : (d.lookup k).isSome
  · rw [if_pos hs, lookup_map_set_ne _ _ _ _ h]
  · rw [if_neg hs, lookup_append, lookup_cons_ne _ _ _ _ h]
    cases d.lookup t <;> rfl

/-! ### Lemmas about failure recording in check -/

theorem lookup_map_modify_ne (d : PyDict (List String)) (k t line : String)
    (h : ¬ t = k) :
    (d.map (fun p => if p.1 = k then (p.1, p.2 ++ [line]) else p)).lookup t
      = d.lookup t := by
  induction d with
  | nil => simp
  | cons p d ih =>
    obtain ⟨a, b⟩ := p
    rw [List.map_cons]
    by_cases ha : a = k
    · subst ha
      have hhead : (if (a, b).1 = a then ((a, b).1, (a, b).2 ++ [line]) else (a, b))
          = (a, b ++ [line]) := by simp
      rw [hhead, lookup_cons_ne _ _ _ _ h, lookup_cons_ne _ _ _ _ h, ih]
    · have hhead : (if (a, b).1 = k then ((a, b).1, (a, b).2 ++ [line]) else (a, b))
          = (a, b) := by simp [ha]
      rw [hhead]
      by_cases ht : t = a
      · subst ht
        rw [lookup_cons_self, lookup_cons_self]
      · rw [lookup_cons_ne _ _ _ _ ht, lookup_cons_ne _ _ _ _ ht, ih]

theorem lookup_map_modify_self (d : PyDict (List String)) (k line : String) :
    (d.map (fun p => if p.1 = k then (p.1, p.2 ++ [line]) else p)).lookup k
      = (d.lookup k).map (fun old => old ++ [line]) := by
  induction d with
  | nil => simp
  | cons p d ih =>
    obtain ⟨a, b⟩ := p
    rw [List.map_cons]
    by_cases ha : a = k
    · subst ha
      have hhead : (if (a, b).1 = a then ((a, b).1, (a, b).2 ++ [line]) else (a, b))
          = (a, b ++ [line]) := by simp
      rw [hhead, lookup_cons_self, lookup_cons_self]
      rfl
    · have hhead : (if (a, b).1 = k then ((a, b).1, (a, b).2 ++ [line]) else (a, b))
          = (a, b) := by simp [ha]
      have hk : ¬ k = a := fun he => ha he.symm
      rw [hhead, lookup_cons_ne _ _ _ _ hk, lookup_cons_ne _ _ _ _ hk, ih]

theorem lookup_recordFailure_ne (fl : PyDict (List String))
    (f t line : String) (h : ¬ t = f) :
    (recordFailure fl f line).lookup t = fl.lookup t := by
  simp only [recordFailure]
  by_cases hs : (fl.lookup f).isSome
  · rw [if_pos hs, lookup_map_modify_ne _ _ _ _ h]
  · rw [if_neg hs, lookup_map_modify_ne _ _ _ _ h, lookup_append,
      lookup_cons_ne _ _ _ _ h]
    cases fl.lookup t <;> rfl

theorem lookup_recordFailure_self (fl : PyDict (List String))
    (f line : String) :
    (recordFailure fl f line).lookup f
      = some (((fl.lookup f).getD []) ++ [line]) := by
  simp only [recordFailure]
  by_cases hs : (fl.lookup f).isSome
  · rw [if_pos hs, lookup_map_modify_self]
    rcases hl : fl.lookup f with _ | old
    · rw [hl] at hs
      simp at hs
    · rfl
  · rw [if_neg hs, lookup_map_modify_self, lookup_append, lookup_cons_self]
    rw [Option.not_isSome_iff_eq_none] at hs
    rw [hs]
    rfl

theorem length_recordFailure (fl : PyDict (List String)) (f line : String) :
    fl.length ≤ (recordFailure fl f line).length := by
  simp only [recordFailure]
  by_cases hs : (fl.lookup f).isSome
  · simp [hs]
  · simp [hs]

/-! ### Lemmas about the inner loop of check (over the current log lines) -/

theorem innerFold_lookup_ne (expected : List String) (f t : String)
    (h : ¬ t = f) :
    ∀ (lines : List String) (fl : PyDict (List String)),
    ((lines.foldl
        (fun fl log_line =>
          if log_line ∈ expected then fl else recordFailure fl f log_line)
        fl).lookup t)
      = fl.lookup t := by
  intro lines
  induction lines with
  | nil =>
    intro fl
    rfl
  | cons l ls ih =>
    intro fl
    rw [List.foldl_cons, ih]
    by_cases hl : l ∈ expected
    · rw [if_pos hl]
    · rw [if_neg hl, lookup_recordFailure_ne _ _ _ _ h]

theorem innerFold_lookup_self (expected : List String) (f : String) :
    ∀ (lines : List String) (fl : PyDict (List String)),
    ((lines.foldl
        (fun fl log_line =>
          if log_line ∈ expected then fl else recordFailure fl f log_line)
        fl).lookup f)
      = if (fl.lookup f).isNone ∧ lines.filter (fun l => ¬ l ∈ expected) = []
        then none
        else some (((fl.lookup f).getD [])
                    ++ lines.filter (fun l => ¬ l ∈ expected)) := by
  intro lines
  induction lines with
  | nil =>
    intro fl
    rcases hl : fl.lookup f with _ | old <;> simp [hl]
  | cons l ls ih =>
    intro fl
    rw [List.foldl_cons]
    by_cases hl : l ∈ expected
    · rw [if_pos hl, ih]
      have hfc : List.filter (fun x => decide (¬ x ∈ expected)) (l :: ls)
          = List.filter (fun x => decide (¬ x ∈ expected)) ls := by
        rw [List.filter_cons]
        simp [hl]
      rw [hfc]
    · rw [if_neg hl, ih, lookup_recordFailure_self]
      have hfc : List.filter (fun x => decide (¬ x ∈ expected)) (l :: ls)
          = l :: List.filter (fun x => decide (¬ x ∈ expected)) ls := by
        rw [List.filter_cons]
        simp [hl]
      rw [hfc]
      simp [List.append_assoc]

theorem innerFold_id_of_subset (expected : List String) (f : String) :
    ∀ (lines : List String) (fl : PyDict (List String)),
    (∀ l ∈ lines, l ∈ expected) →
    lines.foldl
        (fun fl log_line =>
          if log_line ∈ expected then fl else recordFailure fl f log_line)
        fl
      = fl := by
  intro lines
  induction lines with
  | nil =>
    intro fl _
    rfl
  | cons l ls ih =>
    intro fl hsub
    rw [List.foldl_cons, if_pos (hsub l (by simp))]
    exact ih fl (fun x hx => hsub x (by simp [hx]))

theorem length_innerFold (expected : List String) (f : String) :
    ∀ (lines : List String) (fl : PyDict (List String)),
    fl.length
      ≤ (lines.foldl
          (fun fl log_line =>
            if log_line ∈ expected then fl else recordFailure fl f log_line)
          fl).length := by
  intro lines
  induction lines with
  | nil =>
    intro fl
    exact Nat.le_refl _
  | cons l ls ih =>
    intro fl
    rw [List.foldl_cons]
    by_cases hl : l ∈ expected
    · rw [if_pos hl]
      exact ih fl
    · rw [if_neg hl]
      exact Nat.le_trans (length_recordFailure fl f l) (ih _)

/-! ### Lemmas about checkFile and the outer loop of check -/

/-- The lines of the current contents of `f` that are absent from its
master contents: exactly the failures `check` detects at file `f`, in
their order of detection. -/
def offendingLines (parse_log_lines : String → List String)
    (get_master_contents get_current_contents : String → String)
    (f : String) : List String :=
  (parse_log_lines (get_current_contents f)).filter
    (fun l => ¬ l ∈ parse_log_lines (get_master_contents f))

theorem offendingLines_eq_nil_iff (parse_log_lines : String → List String)
    (get_master_contents get_current_contents : String → String)
    (f : String) :
    offendingLines parse_log_lines get_master_contents get_current_contents f
        = []
      ↔ ∀ l ∈ parse_log_lines (get_current_contents f),
          l ∈ parse_log_lines (get_master_contents f) := by
  rw [offendingLines, List.eq_nil_iff_forall_not_mem]
  constructor
  · intro h l hl
    by_contra hne
    exact h l (List.mem_filter.mpr ⟨hl, by simpa using hne⟩)
  · intro h l hl
    rcases List.mem_filter.mp hl with ⟨hl1, hl2⟩
    simp only [decide_eq_true_eq] at hl2
    exact hl2 (h l hl1)

theorem checkFile_lookup_ne (parse_log_lines : String → List String)
    (gm gc : String → String) (fl : PyDict (List String)) (f t : String)
    (h : ¬ t = f) :
    (checkFile parse_log_lines gm gc fl f).lookup t = fl.lookup t := by
  simp only [checkFile]
  exact innerFold_lookup_ne _ _ _ h _ _

theorem checkFile_lookup_self (parse_log_lines : String → List String)
    (gm gc : String → String) (fl : PyDict (List String)) (f : String) :
    (checkFile parse_log_lines gm gc fl f).lookup f
      = if (fl.lookup f).isNone
            ∧ offendingLines parse_log_lines gm gc f = []
        then none
        else some (((fl.lookup f).getD [])
                    ++ offendingLines parse_log_lines gm gc f) := by
  simp only [checkFile, offendingLines]
  exact innerFold_lookup_self _ _ _ _

theorem checkFile_eq_of_no_offending (parse_log_lines : String → List String)
    (gm gc : String → String) (fl : PyDict (List String)) (f : String)
    (h : offendingLines parse_log_lines gm gc f = []) :
    checkFile parse_log_lines gm gc fl f = fl := by
  simp only [checkFile]
  exact innerFold_id_of_subset _ _ _ _
    ((offendingLines_eq_nil_iff parse_log_lines gm gc f).mp h)

theorem checkFile_ne_nil_of_offending (parse_log_lines : String → List String)
    (gm gc : String → String) (fl : PyDict (List String)) (f : String)
    (h : ¬ offendingLines parse_log_lines gm gc f = []) :
    ¬ checkFile parse_log_lines gm gc fl f = [] := by
  intro he
  have hl := checkFile_lookup_self parse_log_lines gm gc fl f
  rw [he, if_neg (fun hc => h hc.2)] at hl
  simp at hl

theorem length_checkFile (parse_log_lines : String → List String)
    (gm gc : String → String) (fl : PyDict (List String)) (f : String) :
    fl.length ≤ (checkFile parse_log_lines gm gc fl f).length := by
  simp only [checkFile]
  exact length_innerFold _ _ _ _

theorem length_outerFold (parse_log_lines : String → List String)
    (gm gc : String → String) :
    ∀ (files : List String) (fl : PyDict (List String)),
    fl.length
      ≤ (files.foldl (checkFile parse_log_lines gm gc) fl).length := by
  intro files
  induction files with
  | nil =>
    intro fl
    exact Nat.le_refl _
  | cons g gs ih =>
    intro fl
    rw [List.foldl_cons]
    exact Nat.le_trans (length_checkFile parse_log_lines gm gc fl g) (ih _)

theorem outerFold_lookup_not_mem (parse_log_lines : String → List String)
    (gm gc : String → String) (f : String) :
    ∀ (files : List String) (fl : PyDict (List String)), ¬ f ∈ files →
    ((files.foldl (checkFile parse_log_lines gm gc) fl).lookup f)
      = fl.lookup f := by
  intro files
  induction files with
  | nil =>
    intro fl _
    rfl
  | cons g gs ih =>
    intro fl hf
    have hg : ¬ f = g := fun he => hf (by simp [he])
    rw [List.foldl_cons, ih _ (fun hx => hf (by simp [hx])),
      checkFile_lookup_ne _ _ _ _ _ _ hg]

theorem outerFold_lookup_mem (parse_log_lines : String → List String)
    (gm gc : String → String) (f : String) :
    ∀ (files : List String) (fl : PyDict (List String)),
    files.Nodup → f ∈ files →
    ((files.foldl (checkFile parse_log_lines gm gc) fl).lookup f)
      = if (fl.lookup f).isNone
            ∧ offendingLines parse_log_lines gm gc f = []
        then none
        else some (((fl.lookup f).getD [])
                    ++ offendingLines parse_log_lines gm gc f) := by
  intro files
  induction files with
  | nil =>
    intro fl _ hf
    simp at hf
  | cons g gs ih =>
    intro fl hnd hf
    rw [List.foldl_cons]
    by_cases hg : f = g
    · subst hg
      have hnot : ¬ f ∈ gs := (List.nodup_cons.mp hnd).1
      rw [outerFold_lookup_not_mem parse_log_lines gm gc f gs _ hnot,
        checkFile_lookup_self]
    · have hmem : f ∈ gs := by
        rcases List.mem_cons.mp hf with he | hm
        · exact absurd he hg
        · exact hm
      rw [ih _ (List.nodup_cons.mp hnd).2 hmem,
        checkFile_lookup_ne _ _ _ _ _ _ hg]

theorem outerFold_nil_iff (parse_log_lines : String → List String)
    (gm gc : String → String) :
    ∀ (files : List String),
    files.foldl (checkFile parse_log_lines gm gc) [] = []
      ↔ ∀ f ∈ files, offendingLines parse_log_lines gm gc f = [] := by
  intro files
  induction files with
  | nil => simp
  | cons g gs ih =>
    rw [List.foldl_cons]
    constructor
    · intro he
      have hg : offendingLines parse_log_lines gm gc g = [] := by
        by_contra hoff
        have h1 := checkFile_ne_nil_of_offending parse_log_lines gm gc [] g hoff
        have h2 := length_outerFold parse_log_lines gm gc gs
          (checkFile parse_log_lines gm gc [] g)
        rw [he] at h2
        exact h1 (List.eq_nil_of_length_eq_zero (Nat.le_zero.mp h2))
      rw [checkFile_eq_of_no_offending parse_log_lines gm gc [] g hg] at he
      intro f hf
      rcases List.mem_cons.mp hf with hfe | hfm
      · rw [hfe]
        exact hg
      · exact (ih.mp he) f hfm
    · intro hall
      rw [checkFile_eq_of_no_offending parse_log_lines gm gc [] g
        (hall g (by simp))]
      exact ih.mpr (fun f hf => hall f (by simp [hf]))

/-! ### The claims -/

/-- C1, counterexample: on the configuration with `unmerged` mapping the
key `k` to `u` and `master` mapping `k` to `m`, the `master` mapping
returned by `update_master` does not carry the `unmerged` value `u` at the
colliding key `k` (it carries the `master` value `m`), contradicting the
claimed `unmerged`-wins precedence. -/
theorem C1_counterexample :
    ¬ (((update_master ⟨[("k", "u")], [("k", "m")]⟩ false).1.master).lookup "k"
        = some "u") := by
  decide

/-- C1, amended: for every configuration, the `master` mapping returned by
`update_master` is the union of the input `master` and `unmerged`
mappings, and on any key present in both, the value from the input
`master` mapping takes precedence (the lookup of any key in the result is
the `master` value when present, otherwise the `unmerged` value). -/
theorem C1_update_master_merged (configs : Config) (verbose : Bool)
    (k : String) :
    ((update_master configs verbose).1.master).lookup k
      = (configs.master.lookup k).or (configs.unmerged.lookup k) := by
  simp only [update_master]
  exact lookup_dictUpdate _ _ _

/-- C2, counterexample: on the configuration with `unmerged` mapping `a`
to `p1` and `master` mapping `b` to `p2`, the state of the input
configuration after `update_master` differs from the input: its
`unmerged` dictionary has been updated in place. -/
theorem C2_counterexample :
    ¬ ((update_master ⟨[("a", "p1")], [("b", "p2")]⟩ false).2
        = ⟨[("a", "p1")], [("b", "p2")]⟩) := by
  decide

/-- C2, amended: `update_master` leaves the input configuration's `master`
mapping unchanged, but mutates the input's `unmerged` mapping in place:
after the call it holds the merged mapping (the old `unmerged` updated
with the entries of `master`, `master` winning on collision).  Beyond this
mutation and the progress message there is no other effect. -/
theorem C2_update_master_mutation (configs : Config) (verbose : Bool) :
    (update_master configs verbose).2.master = configs.master ∧
    ∀ k, ((update_master configs verbose).2.unmerged).lookup k
          = (configs.master.lookup k).or (configs.unmerged.lookup k) :=
  ⟨rfl, fun k => lookup_dictUpdate _ _ _⟩

/-- C3, counterexample: on the configuration with `unmerged` mapping `k`
to `u` and `master` mapping `k` to `m`, the mapping `update_release`
stores under the tag is not the merged mapping described by the spec's
words (union with `unmerged` taking precedence): the stored value at `k`
is `m`, not `u`. -/
theorem C3_counterexample :
    ¬ (((update_release ⟨[("k", "u")], [("k", "m")]⟩ [] "v1.0" false true).1).lookup
          "v1.0"
        = some (specMergeUnmergedWins ⟨[("k", "u")], [("k", "m")]⟩)) := by
  decide

/-- C3, amended: for every configuration, archives and tag, the updated
archives returned by `update_release` map `tag` to exactly the merged
mapping `update_master` would compute as its result's `master` (the union
of `master` and `unmerged` with the `master` value winning on collision),
overwriting any prior entry for that tag. -/
theorem C3_update_release_stores_master_merge (configs : Config)
    (archives : Archives) (tag : String) (verbose dry_run vm : Bool) :
    ((update_release configs archives tag verbose dry_run).1).lookup tag
      = some ((update_master configs vm).1.master) := by
  simp only [update_release, update_master]
  exact lookup_dictSet_self _ _ _

/-- C4: a path belongs to the list of files `check` inspects exactly when
it is a value of the `master` mapping and not a value of the `unmerged`
mapping; in particular, when the two mappings share no paths the list is
all of `master`, and every shared path is excluded. -/
theorem C4_files_to_check_spec (configs : Config) (f : String) :
    f ∈ files_to_check configs
      ↔ f ∈ dictValues configs.master ∧ ¬ f ∈ dictValues configs.unmerged := by
  simp [files_to_check, excluded_files, List.mem_filter]

/-- C5: the failure report of `check` is empty exactly when, for every
checked file, every parsed current log line occurs among the parsed
master log lines. -/
theorem C5_check_report_empty_iff (configs : Config)
    (parse_log_lines : String → List String)
    (get_master_contents get_current_contents : String → String)
    (verbose : Bool) :
    (check configs parse_log_lines get_master_contents get_current_contents
        verbose).1 = []
      ↔ ∀ f ∈ files_to_check configs,
          ∀ l ∈ parse_log_lines (get_current_contents f),
            l ∈ parse_log_lines (get_master_contents f) := by
  simp only [check]
  rw [outerFold_nil_iff]
  exact forall₂_congr
    (fun f hf =>
      offendingLines_eq_nil_iff parse_log_lines get_master_contents
        get_current_contents f)

/-- C6: when the paths tracked by `master` are distinct (the spec's data
model invariant), a checked file whose parsed current contents contain a
line absent from its parsed master contents appears in the failure report
mapped to exactly the offending lines, in order of detection (each
current line not in the master line set, in the order the current
contents list them). -/
theorem C6_check_failure_entry (configs : Config)
    (parse_log_lines : String → List String)
    (get_master_contents get_current_contents : String → String)
    (verbose : Bool) (f : String)
    (hnd : (dictValues configs.master).Nodup)
    (hf : f ∈ files_to_check configs)
    (hoff : ¬ offendingLines parse_log_lines get_master_contents
        get_current_contents f = []) :
    ((check configs parse_log_lines get_master_contents get_current_contents
        verbose).1).lookup f
      = some (offendingLines parse_log_lines get_master_contents
          get_current_contents f) := by
  have hnd2 : (files_to_check configs).Nodup := by
    rw [files_to_check]
    exact hnd.filter _
  simp only [check]
  rw [outerFold_lookup_mem parse_log_lines get_master_contents
      get_current_contents f _ _ hnd2 hf,
    if_neg (fun hc => hoff hc.2)]
  rfl

/-- C6, witness: a concrete configuration tracking the single file
`f1.log`, whose master contents parse to the lines `L1, L2` and whose
current contents parse to `L1, L3`; the report maps `f1.log` to the
single offending line `L3`. -/
theorem C6_witness :
    ((dictValues (Config.mk [] [("a", "f1.log")]).master).Nodup ∧
     "f1.log" ∈ files_to_check (Config.mk [] [("a", "f1.log")]) ∧
     ¬ offendingLines
         (fun s => if s = "MASTER" then ["L1", "L2"] else ["L1", "L3"])
         (fun _ => "MASTER") (fun _ => "CURRENT") "f1.log" = []) ∧
    ((check (Config.mk [] [("a", "f1.log")])
        (fun s => if s = "MASTER" then ["L1", "L2"] else ["L1", "L3"])
        (fun _ => "MASTER") (fun _ => "CURRENT") false).1).lookup "f1.log"
      = some (offendingLines
          (fun s => if s = "MASTER" then ["L1", "L2"] else ["L1", "L3"])
          (fun _ => "MASTER") (fun _ => "CURRENT") "f1.log") :=
  ⟨⟨by decide, by decide, by decide⟩,
   C6_check_failure_entry (Config.mk [] [("a", "f1.log")])
     (fun s => if s = "MASTER" then ["L1", "L2"] else ["L1", "L3"])
     (fun _ => "MASTER") (fun _ => "CURRENT") false "f1.log"
     (by decide) (by decide) (by decide)⟩

/-- C7: the configuration returned by `update_master` has an empty
`unmerged` mapping, and the key set of its `master` mapping is the union
of the key sets of the input's `master` and `unmerged` mappings. -/
theorem C7_update_master_keys (configs : Config) (verbose : Bool) :
    (update_master configs verbose).1.unmerged = [] ∧
    ∀ k, (k ∈ ((update_master configs verbose).1.master).map Prod.fst
          ↔ k ∈ configs.master.map Prod.fst
              ∨ k ∈ configs.unmerged.map Prod.fst) := by
  refine ⟨rfl, fun k => ?_⟩
  simp only [update_master]
  rw [mem_keys_dictUpdate]
  exact Or.comm

/-- C8: the archives computed by `update_release` are identical whether
`dry_run` is true or false; the flag does not alter the computed
result. -/
theorem C8_dry_run_no_effect (configs : Config) (archives : Archives)
    (tag : String) (verbose : Bool) :
    (update_release configs archives tag verbose true).1
      = (update_release configs archives tag verbose false).1 := rfl

/-- C9: `check` leaves the input configuration unchanged: the `unmerged`
and `master` mappings of the configuration state after the call equal
those before it (the translation threads the configuration state through,
and no statement of `check` writes to it). -/
theorem C9_check_preserves_configs (configs : Config)
    (parse_log_lines : String → List String)
    (get_master_contents get_current_contents : String → String)
    (verbose : Bool) :
    (check configs parse_log_lines get_master_contents get_current_contents
        verbose).2.unmerged = configs.unmerged ∧
    (check configs parse_log_lines get_master_contents get_current_contents
        verbose).2.master = configs.master :=
  ⟨rfl, rfl⟩

/-- C10: `update_release` leaves the archive entry of every tag other
than the given tag unchanged. -/
theorem C10_update_release_frame (configs : Config) (archives : Archives)
    (tag : String) (verbose dry_run : Bool) (t : String) (h : ¬ t = tag) :
    ((update_release configs archives tag verbose dry_run).1).lookup t
      = archives.lookup t := by
  simp only [update_release]
  exact lookup_dictSet_ne _ _ _ _ h

/-- C10, witness: archiving under the tag `v1.0` leaves the existing
entry for the tag `v0.9` untouched. -/
theorem C10_witness :
    ¬ "v0.9" = "v1.0" ∧
    ((update_release ⟨[], []⟩ [("v0.9", [("x", "y")])] "v1.0" false true).1).lookup
        "v0.9"
      = ([("v0.9", [("x", "y")])] : Archives).lookup "v0.9" :=
  ⟨by decide,
   C10_update_release_frame ⟨[], []⟩ [("v0.9", [("x", "y")])] "v1.0" false true
     "v0.9" (by decide)⟩
